import Mathlib

/-!
# KY-004 push button with an interrupt service routine (src/main.cpp)

A shallow embedding of the sketch: the global variables and the function-local
static of the interrupt handler form one record, every C++ function becomes a
function on that record, and the calls made on the `tft` object are recorded
in the order they are issued.

`unsigned long` is 32 bits wide on the ESP32-S3; clock readings and their
difference are natural numbers reduced modulo 4294967296.
-/

namespace PushButton

/-! ## Machine arithmetic and the external collaborators -/

/-- Reading of `millis()` when `now` milliseconds have passed since boot: the
count is truncated to an `unsigned long`. -/
def millis (now : Nat) : Nat := now % 4294967296

/-- Subtraction of two `unsigned long` values, `a - b` in C++. -/
def ulongSub (a b : Nat) : Nat :=
  (a % 4294967296 + (4294967296 - b % 4294967296)) % 4294967296

/-- Value of `const long debounceInterval = 10` (line 53). -/
def debounceInterval : Nat := 10

/-- Colours passed to the display library. -/
inductive Colour where
  | TFT_BLACK
  | TFT_WHITE
  deriving DecidableEq, Repr

/-- One call on the `tft` object. -/
inductive TftCall where
  | init
  | setRotation (r : Nat)
  | fillScreen (c : Colour)
  | setTextFont (f : Nat)
  | setTextColor (fg bg : Colour)
  | setCursor (x y : Nat)
  | println (text : String)
  | print (text : String)
  deriving DecidableEq, Repr

/-! ## Program state -/

/-- Globals of lines 49-56, the static local of line 99, and the calls issued
on `tft` so far (oldest first). -/
structure State where
  buttonPressed : Bool
  buttonReleased : Bool
  buttonState : Bool
  lastDebounceTime : Nat
  redrawRequired : Bool
  lastInterruptTime : Nat
  tft : List TftCall
  deriving DecidableEq, Repr

/-- State given by the initialisers, before `setup()` runs. -/
def boot : State :=
  { buttonPressed := false
    buttonReleased := false
    buttonState := false
    lastDebounceTime := 0
    redrawRequired := true
    lastInterruptTime := 0
    tft := [] }

/-! ## Helper functions (lines 63-90) -/

/-- Calls issued by `drawStaticElements()` (lines 64-81). -/
def staticCalls : List TftCall :=
  [ TftCall.fillScreen Colour.TFT_BLACK,
    TftCall.setTextFont 2,
    TftCall.setTextColor Colour.TFT_WHITE Colour.TFT_BLACK,
    TftCall.setCursor 0 0,
    TftCall.println "----------------------------",
    TftCall.println "KY004 Push Button Module",
    TftCall.println "----------------------------",
    TftCall.setCursor 0 70,
    TftCall.print "Button State:" ]

/-- Function `drawStaticElements()`. -/
def drawStaticElements (s : State) : State :=
  { s with tft := s.tft ++ staticCalls }

/-- Text chosen by `buttonState ? "RELEASED" : "PRESSED"` (line 89). -/
def stateLabel (buttonState : Bool) : String :=
  if buttonState then "RELEASED" else "PRESSED"

/-- Calls issued by one run of `updateDynamicElements()` (lines 86-89) when
the button state is `buttonState`. -/
def dynamicCalls (buttonState : Bool) : List TftCall :=
  [ TftCall.setCursor 0 90,
    TftCall.print "            ",
    TftCall.setCursor 0 90,
    TftCall.print (stateLabel buttonState) ]

/-- Function `updateDynamicElements()`. -/
def updateDynamicElements (s : State) : State :=
  { s with tft := s.tft ++ dynamicCalls s.buttonState }

/-! ## Main functions (lines 97-168) -/

/-- Value of `interruptTime - lastInterruptTime` (line 103). -/
def elapsed (s : State) (interruptTime : Nat) : Nat :=
  ulongSub interruptTime s.lastInterruptTime

/-- Condition of the outer `if` of the handler (line 103). -/
def debouncePassed (s : State) (interruptTime : Nat) : Bool :=
  decide (elapsed s interruptTime > debounceInterval)

/-- Function `handleButtonChange()` (lines 98-118). `now` is the time since
boot in milliseconds at which the handler runs and `pin` the level returned by
`digitalRead(buttonPin)` (`true` for HIGH). -/
def handleButtonChange (s : State) (now : Nat) (pin : Bool) : State :=
  let interruptTime := millis now
  let s1 :=
    if debouncePassed s interruptTime then
      let currentState := !pin
      if currentState != s.buttonState then
        let s2 := { s with buttonState := currentState }
        if s2.buttonState then
          { s2 with buttonPressed := true }
        else
          { s2 with buttonReleased := true }
      else s
    else s
  { s1 with lastInterruptTime := interruptTime }

/-- Function `setup()` (lines 122-144), run on state `s` while the pin reads
`pin`. `pinMode` and `attachInterrupt` configure the hardware only. -/
def setup (s : State) (pin : Bool) : State :=
  let s1 := { s with buttonState := !pin }
  let s2 := { s1 with tft := s1.tft ++
    [ TftCall.init,
      TftCall.setRotation 0,
      TftCall.fillScreen Colour.TFT_BLACK,
      TftCall.setTextFont 2,
      TftCall.setTextColor Colour.TFT_WHITE Colour.TFT_BLACK ] }
  let s3 := drawStaticElements s2
  { s3 with redrawRequired := true }

/-- Function `loop()` (lines 148-168): one iteration. -/
def loop (s : State) : State :=
  let s1 :=
    if s.buttonPressed then
      { s with redrawRequired := true, buttonPressed := false }
    else s
  let s2 :=
    if s1.buttonReleased then
      { s1 with redrawRequired := true, buttonReleased := false }
    else s1
  if s2.redrawRequired then
    { updateDynamicElements s2 with redrawRequired := false }
  else s2

/-! ## Executions -/

/-- State when `setup()` has returned, `pin` being the level at boot. -/
def startup (pin : Bool) : State := setup boot pin

/-- A whole run of the interrupt handler or a whole iteration of `loop()`. -/
inductive Event where
  | isr (now : Nat) (pin : Bool)
  | poll
  deriving DecidableEq, Repr

/-- Effect of one event. -/
def step (s : State) : Event → State
  | Event.isr now pin => handleButtonChange s now pin
  | Event.poll => loop s

/-- Effect of a sequence of events, oldest first. -/
def run (s : State) (evs : List Event) : State :=
  evs.foldl step s

/-- Events of a burst of handler runs, given as (time since boot, pin level). -/
def isrEvents (burst : List (Nat × Bool)) : List Event :=
  burst.map fun e => Event.isr e.1 e.2

/-- Every handler run of the burst happens at or after the run before it and
less than 10 ms after it; `prev` is the time of the run before the burst. -/
def closelySpaced : Nat → List (Nat × Bool) → Prop
  | _, [] => True
  | prev, e :: rest => prev ≤ e.1 ∧ e.1 < prev + 10 ∧ closelySpaced e.1 rest

/-- Whether a handler run on `s` takes the inner branch (lines 107-114): the
debounce test passes and the inverted pin level differs from `buttonState`. -/
def accepted (s : State) (now : Nat) (pin : Bool) : Bool :=
  debouncePassed s (millis now) && ((!pin) != s.buttonState)

/-- Effect of one event on a state paired with the number of accepted handler
runs since the last iteration of `loop()`. -/
def stepCounting (c : State × Nat) : Event → State × Nat
  | Event.isr now pin =>
    (handleButtonChange c.1 now pin, if accepted c.1 now pin then c.2 + 1 else c.2)
  | Event.poll => (loop c.1, 0)

/-- Number of handler runs accepted after the last iteration of `loop()` in
`evs` (after the start when `evs` has none), the execution starting in `s`. -/
def acceptedSincePoll (s : State) (evs : List Event) : Nat :=
  (evs.foldl stepCounting (s, 0)).2

/-- Calls issued by successive runs of `updateDynamicElements()`, the n-th run
being made while `buttonState` had the n-th value of `hist`. -/
def renderCalls (hist : List Bool) : List TftCall :=
  hist.flatMap dynamicCalls

/-- Invariant linking the flags to the count of accepted handler runs. -/
def FlagsBounded (c : State × Nat) : Prop :=
  (c.2 = 0 → c.1.buttonPressed = false ∧ c.1.buttonReleased = false) ∧
  (c.2 ≤ 1 → ¬ (c.1.buttonPressed = true ∧ c.1.buttonReleased = true))

/-- Invariant linking the display calls to the flags: the calls issued after
those of `base` are the renders of `hist`, and when both edge flags and
`redrawRequired` are clear the last of them rendered the current state. -/
def RenderedUpTo (base : List TftCall) (s : State) : Prop :=
  ∃ hist : List Bool, s.tft = base ++ renderCalls hist ∧
    (s.buttonPressed = false → s.buttonReleased = false → s.redrawRequired = false →
      ∃ earlier : List Bool, hist = earlier ++ [s.buttonState])

/-- Every handler run of the sequence reads a clock whose unsigned difference
to the reading of the run before it exceeds 10; `prev` is the reading the
first run is compared with. -/
def widelySpaced : Nat → List (Nat × Bool) → Prop
  | _, [] => True
  | prev, e :: rest => ulongSub (millis e.1) prev > 10 ∧ widelySpaced (millis e.1) rest

/-- Every handler run of the sequence fires more than 10 ms after the run
before it; `prev` is the time since boot of the run before the sequence. -/
def spacedApart : Nat → List (Nat × Bool) → Prop
  | _, [] => True
  | prev, e :: rest => prev + 10 < e.1 ∧ spacedApart e.1 rest

/-- Every handler run of the sequence fires more than 10 ms and less than
2 ^ 32 ms after the run before it; `prev` is the time since boot of the run
before the sequence. -/
def spacedApartBelowWrap : Nat → List (Nat × Bool) → Prop
  | _, [] => True
  | prev, e :: rest =>
    prev + 10 < e.1 ∧ e.1 < prev + 4294967296 ∧ spacedApartBelowWrap e.1 rest

/-- The pin levels of the sequence alternate, the first one being `level`. -/
def alternating : Bool → List (Nat × Bool) → Prop
  | _, [] => True
  | level, e :: rest => e.2 = level ∧ alternating (!level) rest

/-- Every handler run of the sequence, started in `s`, is accepted, toggles
`buttonState` and sets the flag of the new state. -/
def allAccepted : State → List (Nat × Bool) → Prop
  | _, [] => True
  | s, e :: rest =>
    accepted s e.1 e.2 = true ∧
    (handleButtonChange s e.1 e.2).buttonState = (!s.buttonState) ∧
    ((handleButtonChange s e.1 e.2).buttonState = true →
      (handleButtonChange s e.1 e.2).buttonPressed = true) ∧
    ((handleButtonChange s e.1 e.2).buttonState = false →
      (handleButtonChange s e.1 e.2).buttonReleased = true) ∧
    allAccepted (handleButtonChange s e.1 e.2) rest

/-! ## The value field of the display -/

/-- Modelled from the spec: the display library is not part of the sources;
the spec describes a text surface with a write cursor that prints fixed-width
text. The value field is the row of character cells that starts at the cursor
position (0, 90); cells past the end of `cells` have never been written and
are blank. `cursor` is the cell the next character goes to, `none` while the
cursor is not at a cell of this row. -/
structure ValueField where
  cells : List Char
  cursor : Option Nat
  deriving DecidableEq, Repr

/-- Modelled from the spec: printing fixed-width text writes one cell per
character from cell `pos` on, replacing what the cells held. -/
def putText (cells : List Char) (pos : Nat) (text : List Char) : List Char :=
  (cells ++ List.replicate (pos - cells.length) ' ').take pos ++ text ++
    cells.drop (pos + text.length)

/-- Modelled from the spec: effect of one call of the display library on the
value field. -/
def showCall (f : ValueField) : TftCall → ValueField
  | TftCall.setCursor x y =>
    { f with cursor := if x = 0 ∧ y = 90 then some 0 else none }
  | TftCall.print text =>
    match f.cursor with
    | some pos =>
      { cells := putText f.cells pos text.toList, cursor := some (pos + text.length) }
    | none => f
  | TftCall.println text =>
    match f.cursor with
    | some pos => { cells := putText f.cells pos text.toList, cursor := none }
    | none => f
  | TftCall.fillScreen _ => { f with cells := [] }
  | TftCall.init => f
  | TftCall.setRotation _ => f
  | TftCall.setTextFont _ => f
  | TftCall.setTextColor _ _ => f

/-- Value field after the calls `calls`, issued on a blank display. -/
def display (calls : List TftCall) : ValueField :=
  calls.foldl showCall { cells := [], cursor := none }

/-- Content of a twelve-cell field holding the label of `buttonState` followed
by blanks only. -/
def renderedField (buttonState : Bool) : List Char :=
  (stateLabel buttonState).toList ++
    List.replicate (12 - (stateLabel buttonState).length) ' '

/-! ## Arithmetic of the clock -/

theorem millis_lt (now : Nat) : millis now < 4294967296 := by
  unfold millis
  omega

theorem ulongSub_millis (prev now : Nat) (hle : prev ≤ now)
    (hlt : now - prev < 4294967296) :
    ulongSub (millis now) (millis prev) = now - prev := by
  unfold ulongSub millis
  omega

theorem ulongSub_zero (a : Nat) : ulongSub a 0 = a % 4294967296 := by
  unfold ulongSub
  omega

theorem debouncePassed_of_last (s : State) (t last : Nat)
    (h : s.lastInterruptTime = last) :
    debouncePassed s t = decide (ulongSub t last > 10) := by
  subst h
  rfl

/-! ## Unfolding of executions -/

theorem run_nil (s : State) : run s [] = s := rfl

theorem run_cons (s : State) (e : Event) (evs : List Event) :
    run s (e :: evs) = run (step s e) evs := rfl

theorem step_isr (s : State) (now : Nat) (pin : Bool) :
    step s (Event.isr now pin) = handleButtonChange s now pin := rfl

theorem step_poll (s : State) : step s Event.poll = loop s := rfl

/-! ## Field-wise description of the handler -/

theorem handleButtonChange_lastInterruptTime (s : State) (now : Nat) (pin : Bool) :
    (handleButtonChange s now pin).lastInterruptTime = millis now := by
  simp [handleButtonChange]

theorem handleButtonChange_rejected (s : State) (now : Nat) (pin : Bool)
    (h : debouncePassed s (millis now) = false ∨ (!pin) = s.buttonState) :
    handleButtonChange s now pin = { s with lastInterruptTime := millis now } := by
  rcases h with h | h
  · simp [handleButtonChange, h]
  · simp [handleButtonChange, h]

theorem handleButtonChange_redrawRequired (s : State) (now : Nat) (pin : Bool) :
    (handleButtonChange s now pin).redrawRequired = s.redrawRequired := by
  unfold handleButtonChange
  simp only
  split_ifs <;> rfl

theorem handleButtonChange_tft (s : State) (now : Nat) (pin : Bool) :
    (handleButtonChange s now pin).tft = s.tft := by
  unfold handleButtonChange
  simp only
  split_ifs <;> rfl

/-! ## The interrupt handler -/

/-- C1: when the difference computed on line 103 exceeds 10 and the inverted
pin level differs from `buttonState`, the handler stores the inverted level in
`buttonState` (LOW gives pressed, HIGH gives released), sets the flag matching
the new state, keeps the other flag, and stores the clock reading. -/
theorem handleButtonChange_accepted (s : State) (now : Nat) (pin : Bool)
    (hgap : elapsed s (millis now) > 10) (hdiff : (!pin) ≠ s.buttonState) :
    (handleButtonChange s now pin).buttonState = (!pin) ∧
    ((handleButtonChange s now pin).buttonState = true →
      (handleButtonChange s now pin).buttonPressed = true ∧
      (handleButtonChange s now pin).buttonReleased = s.buttonReleased) ∧
    ((handleButtonChange s now pin).buttonState = false →
      (handleButtonChange s now pin).buttonReleased = true ∧
      (handleButtonChange s now pin).buttonPressed = s.buttonPressed) ∧
    (handleButtonChange s now pin).lastInterruptTime = millis now := by
  have hpass : debouncePassed s (millis now) = true := by
    simp [debouncePassed, debounceInterval, hgap]
  cases pin <;> simp_all [handleButtonChange]

theorem handleButtonChange_accepted_witness :
    (handleButtonChange (startup true) 25 false).buttonState = (!false) ∧
    ((handleButtonChange (startup true) 25 false).buttonState = true →
      (handleButtonChange (startup true) 25 false).buttonPressed = true ∧
      (handleButtonChange (startup true) 25 false).buttonReleased =
        (startup true).buttonReleased) ∧
    ((handleButtonChange (startup true) 25 false).buttonState = false →
      (handleButtonChange (startup true) 25 false).buttonReleased = true ∧
      (handleButtonChange (startup true) 25 false).buttonPressed =
        (startup true).buttonPressed) ∧
    (handleButtonChange (startup true) 25 false).lastInterruptTime = millis 25 :=
  handleButtonChange_accepted (startup true) 25 false (by decide) (by decide)

/-- C2: when the difference computed on line 103 is at most 10, or exceeds 10
while the inverted pin level equals `buttonState`, the handler leaves
`buttonState`, both flags and `redrawRequired` as they were and stores the
clock reading. -/
theorem handleButtonChange_discarded (s : State) (now : Nat) (pin : Bool)
    (h : elapsed s (millis now) ≤ 10 ∨
      (elapsed s (millis now) > 10 ∧ (!pin) = s.buttonState)) :
    (handleButtonChange s now pin).buttonState = s.buttonState ∧
    (handleButtonChange s now pin).buttonPressed = s.buttonPressed ∧
    (handleButtonChange s now pin).buttonReleased = s.buttonReleased ∧
    (handleButtonChange s now pin).redrawRequired = s.redrawRequired ∧
    (handleButtonChange s now pin).lastInterruptTime = millis now := by
  have hrej : debouncePassed s (millis now) = false ∨ (!pin) = s.buttonState := by
    rcases h with h | h
    · left
      simp [debouncePassed, debounceInterval, h]
    · exact Or.inr h.2
  rw [handleButtonChange_rejected s now pin hrej]
  exact ⟨rfl, rfl, rfl, rfl, rfl⟩

theorem handleButtonChange_discarded_witness :
    (handleButtonChange (startup true) 10 false).buttonState = (startup true).buttonState ∧
    (handleButtonChange (startup true) 10 false).buttonPressed =
      (startup true).buttonPressed ∧
    (handleButtonChange (startup true) 10 false).buttonReleased =
      (startup true).buttonReleased ∧
    (handleButtonChange (startup true) 10 false).redrawRequired =
      (startup true).redrawRequired ∧
    (handleButtonChange (startup true) 10 false).lastInterruptTime = millis 10 :=
  handleButtonChange_discarded (startup true) 10 false (Or.inl (by decide))

/-! ## Bursts inside the debounce window -/

theorem run_closelySpaced (burst : List (Nat × Bool)) :
    ∀ (u : State) (prev : Nat), u.lastInterruptTime = millis prev →
      closelySpaced prev burst →
      (run u (isrEvents burst)).buttonState = u.buttonState ∧
      (run u (isrEvents burst)).buttonPressed = u.buttonPressed ∧
      (run u (isrEvents burst)).buttonReleased = u.buttonReleased := by
  induction burst with
  | nil =>
    intro u prev _ _
    exact ⟨rfl, rfl, rfl⟩
  | cons e rest ih =>
    intro u prev hlast hsp
    obtain ⟨hle, hlt, hrest⟩ := hsp
    have hgap : elapsed u (millis e.1) = e.1 - prev := by
      unfold elapsed
      rw [hlast]
      exact ulongSub_millis prev e.1 hle (by omega)
    have hrej : debouncePassed u (millis e.1) = false := by
      simp only [debouncePassed, debounceInterval, hgap, decide_eq_false_iff_not]
      omega
    have hstep : handleButtonChange u e.1 e.2 =
        { u with lastInterruptTime := millis e.1 } :=
      handleButtonChange_rejected u e.1 e.2 (Or.inl hrej)
    have hrun : run u (isrEvents (e :: rest)) =
        run (handleButtonChange u e.1 e.2) (isrEvents rest) := rfl
    rw [hrun, hstep]
    exact ih { u with lastInterruptTime := millis e.1 } e.1 rfl hrest

/-- C3: after a handler run at time `t1`, any burst of further handler runs,
each less than 10 ms after the one before it and with arbitrary pin levels,
leaves `buttonState` and both flags as the run at `t1` left them. -/
theorem burst_discarded (s : State) (t1 : Nat) (pin1 : Bool)
    (burst : List (Nat × Bool)) (hsp : closelySpaced t1 burst) :
    (run (handleButtonChange s t1 pin1) (isrEvents burst)).buttonState =
      (handleButtonChange s t1 pin1).buttonState ∧
    (run (handleButtonChange s t1 pin1) (isrEvents burst)).buttonPressed =
      (handleButtonChange s t1 pin1).buttonPressed ∧
    (run (handleButtonChange s t1 pin1) (isrEvents burst)).buttonReleased =
      (handleButtonChange s t1 pin1).buttonReleased :=
  run_closelySpaced burst (handleButtonChange s t1 pin1) t1
    (handleButtonChange_lastInterruptTime s t1 pin1) hsp

theorem burst_discarded_witness :
    closelySpaced 20 [(25, true), (29, false)] ∧
    (handleButtonChange (startup true) 20 false).buttonState = true ∧
    (run (handleButtonChange (startup true) 20 false)
      (isrEvents [(25, true), (29, false)])).buttonState =
      (handleButtonChange (startup true) 20 false).buttonState ∧
    (run (handleButtonChange (startup true) 20 false)
      (isrEvents [(25, true), (29, false)])).buttonPressed =
      (handleButtonChange (startup true) 20 false).buttonPressed ∧
    (run (handleButtonChange (startup true) 20 false)
      (isrEvents [(25, true), (29, false)])).buttonReleased =
      (handleButtonChange (startup true) 20 false).buttonReleased :=
  ⟨by simp [closelySpaced], by decide,
    burst_discarded (startup true) 20 false [(25, true), (29, false)]
      (by simp [closelySpaced])⟩

/-! ## The first handler run -/

/-- C4 (as stated, refuted): from the startup state with the button released,
a handler run at t = 0 ms that samples LOW does not pass the debounce test and
leaves `buttonState` released and `buttonPressed` clear. -/
theorem first_run_at_zero_rejected :
    (startup true).buttonState = false ∧
    debouncePassed (startup true) (millis 0) = false ∧
    (handleButtonChange (startup true) 0 false).buttonState = false ∧
    (handleButtonChange (startup true) 0 false).buttonPressed = false := by
  decide

/-- C4 (amended): the first handler run after startup is tested against the
initial timestamp 0, so it passes the debounce test exactly when the clock
reading exceeds 10; from the startup state with the button released, a run
sampling LOW yields pressed and `buttonPressed` exactly in that case. -/
theorem first_run_filter (pin0 : Bool) (now : Nat) :
    debouncePassed (startup pin0) (millis now) = decide (10 < millis now) ∧
    (handleButtonChange (startup true) now false).buttonState =
      decide (10 < millis now) ∧
    (handleButtonChange (startup true) now false).buttonPressed =
      decide (10 < millis now) := by
  have hlast : ∀ p, (startup p).lastInterruptTime = 0 := fun _ => rfl
  have hbs : (startup true).buttonState = false := rfl
  have hbp : (startup true).buttonPressed = false := rfl
  have hmod : millis now % 4294967296 = millis now :=
    Nat.mod_eq_of_lt (millis_lt now)
  have hpass : ∀ p, debouncePassed (startup p) (millis now) =
      decide (10 < millis now) := by
    intro p
    simp [debouncePassed, elapsed, hlast, ulongSub_zero, hmod, debounceInterval]
  refine ⟨hpass pin0, ?_, ?_⟩
  · by_cases h : 10 < millis now
    · simp [handleButtonChange, hpass, h, hbs]
    · simp [handleButtonChange, hpass, h, hbs]
  · by_cases h : 10 < millis now
    · simp [handleButtonChange, hpass, h, hbs]
    · simp [handleButtonChange, hpass, h, hbs, hbp]

/-! ## The display label -/

/-- C5 (evaluation of the code): the label printed for `buttonState = true`,
the value stored for a LOW pin and announced through `buttonPressed`, is
"RELEASED", and the label for `buttonState = false` is "PRESSED"; the
iteration after an accepted press ends with printing "RELEASED", the one
after an accepted release and the first one after a boot with the pin LOW
likewise print the opposite label. -/
theorem label_opposite_to_state :
    stateLabel true = "RELEASED" ∧ stateLabel false = "PRESSED" ∧
    (handleButtonChange (startup true) 25 false).buttonState = true ∧
    (handleButtonChange (startup true) 25 false).buttonPressed = true ∧
    (loop (handleButtonChange (startup true) 25 false)).tft.getLast? =
      some (TftCall.print "RELEASED") ∧
    (handleButtonChange (startup false) 25 true).buttonReleased = true ∧
    (loop (handleButtonChange (startup false) 25 true)).tft.getLast? =
      some (TftCall.print "PRESSED") ∧
    (startup false).buttonState = true ∧
    (loop (startup false)).tft.getLast? = some (TftCall.print "RELEASED") := by
  decide

/-! ## One iteration of the main loop -/

theorem loop_flags (s : State) :
    (loop s).buttonPressed = false ∧ (loop s).buttonReleased = false ∧
    (loop s).redrawRequired = false := by
  rcases s with ⟨bp, br, bs, ld, rr, li, calls⟩
  cases bp <;> cases br <;> cases rr <;> simp [loop, updateDynamicElements]

theorem loop_frame (s : State) :
    (loop s).buttonState = s.buttonState ∧
    (loop s).lastInterruptTime = s.lastInterruptTime := by
  rcases s with ⟨bp, br, bs, ld, rr, li, calls⟩
  cases bp <;> cases br <;> cases rr <;> simp [loop, updateDynamicElements]

theorem loop_tft (s : State) :
    (loop s).tft = s.tft ++
      (if s.buttonPressed || s.buttonReleased || s.redrawRequired
        then dynamicCalls s.buttonState else []) := by
  rcases s with ⟨bp, br, bs, ld, rr, li, calls⟩
  cases bp <;> cases br <;> cases rr <;> simp [loop, updateDynamicElements]

theorem loop_idle (s : State) (hp : s.buttonPressed = false)
    (hr : s.buttonReleased = false) (hd : s.redrawRequired = false) :
    loop s = s := by
  rcases s with ⟨bp, br, bs, ld, rr, li, calls⟩
  simp only at hp hr hd
  subst hp hr hd
  rfl

/-- C6: one iteration of `loop()` issues the calls of exactly one render of
the current `buttonState` when `buttonPressed`, `buttonReleased` or
`redrawRequired` was set on entry and no call otherwise; it returns with the
three of them clear and with `buttonState` and the handler timestamp
unchanged; an iteration run right after it issues no call and changes
nothing. -/
theorem loop_postcondition (s : State) :
    (loop s).tft = s.tft ++
      (if s.buttonPressed || s.buttonReleased || s.redrawRequired
        then dynamicCalls s.buttonState else []) ∧
    (loop s).buttonPressed = false ∧ (loop s).buttonReleased = false ∧
    (loop s).redrawRequired = false ∧
    (loop s).buttonState = s.buttonState ∧
    (loop s).lastInterruptTime = s.lastInterruptTime ∧
    (loop (loop s)).tft = (loop s).tft ∧ loop (loop s) = loop s := by
  obtain ⟨hp, hr, hd⟩ := loop_flags s
  obtain ⟨hbs, hli⟩ := loop_frame s
  have hidle : loop (loop s) = loop s := loop_idle (loop s) hp hr hd
  exact ⟨loop_tft s, hp, hr, hd, hbs, hli, by rw [hidle], hidle⟩

/-- C7 (as stated, refuted): it is not the case that every iteration entered
with both edge flags clear leaves `redrawRequired`, `buttonState` and the
display calls unchanged; the state left by `setup()` is such a state. -/
theorem loop_not_idle_when_dirty :
    ¬ ∀ s : State, s.buttonPressed = false → s.buttonReleased = false →
      (loop s).redrawRequired = s.redrawRequired ∧
      (loop s).buttonState = s.buttonState ∧ (loop s).tft = s.tft := by
  intro h
  have h1 := (h (startup true) rfl rfl).1
  revert h1
  decide

/-- C7 (amended): an iteration of `loop()` entered with `buttonPressed`,
`buttonReleased` and `redrawRequired` all clear leaves `redrawRequired`,
`buttonState` and the display calls unchanged. -/
theorem loop_idempotent_when_clean (s : State) (hp : s.buttonPressed = false)
    (hr : s.buttonReleased = false) (hd : s.redrawRequired = false) :
    (loop s).redrawRequired = s.redrawRequired ∧
    (loop s).buttonState = s.buttonState ∧ (loop s).tft = s.tft := by
  rw [loop_idle s hp hr hd]
  exact ⟨rfl, rfl, rfl⟩

theorem loop_idempotent_when_clean_witness :
    (loop (loop (startup false))).redrawRequired = (loop (startup false)).redrawRequired ∧
    (loop (loop (startup false))).buttonState = (loop (startup false)).buttonState ∧
    (loop (loop (startup false))).tft = (loop (startup false)).tft :=
  loop_idempotent_when_clean (loop (startup false)) (by decide) (by decide) (by decide)

/-! ## Edge flags over executions -/

theorem handleButtonChange_of_accepted (s : State) (now : Nat) (pin : Bool)
    (h : accepted s now pin = true) :
    (handleButtonChange s now pin).buttonState = (!pin) ∧
    (handleButtonChange s now pin).buttonPressed = (!pin || s.buttonPressed) ∧
    (handleButtonChange s now pin).buttonReleased = (pin || s.buttonReleased) := by
  simp only [accepted, Bool.and_eq_true] at h
  obtain ⟨hpass, hdiff⟩ := h
  cases pin <;> simp_all [handleButtonChange]

theorem handleButtonChange_of_not_accepted (s : State) (now : Nat) (pin : Bool)
    (h : accepted s now pin = false) :
    handleButtonChange s now pin = { s with lastInterruptTime := millis now } := by
  apply handleButtonChange_rejected
  simp only [accepted, Bool.and_eq_false_iff] at h
  rcases h with h | h
  · exact Or.inl h
  · right
    revert h
    cases pin <;> cases s.buttonState <;> simp

theorem foldl_stepCounting_fst (evs : List Event) :
    ∀ c : State × Nat, (evs.foldl stepCounting c).1 = run c.1 evs := by
  induction evs with
  | nil => intro c; rfl
  | cons e rest ih =>
    intro c
    have hfst : (stepCounting c e).1 = step c.1 e := by
      cases e <;> rfl
    simp only [List.foldl_cons, run]
    rw [ih (stepCounting c e), hfst]
    rfl

theorem flagsBounded_step (c : State × Nat) (e : Event) (hc : FlagsBounded c) :
    FlagsBounded (stepCounting c e) := by
  obtain ⟨h0, h1⟩ := hc
  cases e with
  | poll =>
    obtain ⟨hp, hr, _⟩ := loop_flags c.1
    change FlagsBounded (loop c.1, 0)
    refine ⟨fun _ => ⟨hp, hr⟩, fun _ hboth => ?_⟩
    simp only [hp] at hboth
    exact Bool.false_ne_true hboth.1
  | isr now pin =>
    by_cases hacc : accepted c.1 now pin = true
    · obtain ⟨_, hp, hr⟩ := handleButtonChange_of_accepted c.1 now pin hacc
      simp only [stepCounting, hacc, if_true]
      refine ⟨fun hz => absurd hz (Nat.succ_ne_zero _), fun hle hboth => ?_⟩
      obtain ⟨hp0, hr0⟩ := h0 (by omega)
      rw [hp, hr, hp0, hr0] at hboth
      cases pin <;> simp at hboth
    · have hacc' : accepted c.1 now pin = false := by
        simpa using hacc
      have hrej := handleButtonChange_of_not_accepted c.1 now pin hacc'
      simp only [stepCounting, hacc', Bool.false_eq_true, if_false, hrej]
      exact ⟨h0, h1⟩

theorem flagsBounded_foldl (evs : List Event) :
    ∀ c : State × Nat, FlagsBounded c → FlagsBounded (evs.foldl stepCounting c) := by
  induction evs with
  | nil => intro c hc; exact hc
  | cons e rest ih =>
    intro c hc
    exact ih (stepCounting c e) (flagsBounded_step c e hc)

/-- C8 (as stated, refuted): after `setup()` with the button released, a
handler run at 20 ms sampling LOW and one at 40 ms sampling HIGH, with no
iteration of `loop()` in between, leave both edge flags set. -/
theorem both_flags_set_after_two_accepts :
    (run (startup true) [Event.isr 20 false, Event.isr 40 true]).buttonPressed = true ∧
    (run (startup true) [Event.isr 20 false, Event.isr 40 true]).buttonReleased = true := by
  decide

/-- C8 (amended): in every state reached from startup by handler runs and
iterations of `loop()`, the two edge flags are not both set provided at most
one handler run was accepted since the last iteration (since startup when
there was none). -/
theorem flags_exclusive_after_one_accept (pin : Bool) (evs : List Event)
    (h : acceptedSincePoll (startup pin) evs ≤ 1) :
    ¬ ((run (startup pin) evs).buttonPressed = true ∧
       (run (startup pin) evs).buttonReleased = true) := by
  have hinit : FlagsBounded (startup pin, 0) := by
    refine ⟨fun _ => ⟨rfl, rfl⟩, fun _ hboth => ?_⟩
    exact Bool.false_ne_true hboth.1
  have hinv := flagsBounded_foldl evs (startup pin, 0) hinit
  have hfst := foldl_stepCounting_fst evs (startup pin, 0)
  simp only at hfst
  rw [← hfst]
  exact hinv.2 h

theorem flags_exclusive_after_one_accept_witness :
    acceptedSincePoll (startup true)
      [Event.isr 20 false, Event.poll, Event.isr 40 true] = 1 ∧
    ¬ ((run (startup true)
        [Event.isr 20 false, Event.poll, Event.isr 40 true]).buttonPressed = true ∧
       (run (startup true)
        [Event.isr 20 false, Event.poll, Event.isr 40 true]).buttonReleased = true) :=
  ⟨by decide,
    flags_exclusive_after_one_accept true
      [Event.isr 20 false, Event.poll, Event.isr 40 true] (by decide)⟩

/-! ## Startup -/

/-- C9: `setup()` stores the inverted pin level in `buttonState` whatever the
handler timestamp and the other variables hold (LOW gives pressed) and does
not touch the edge flags, which are clear in the state it leaves after boot;
the first iteration of `loop()` after it issues the calls of exactly one
render of that `buttonState`, no handler run having happened. -/
theorem setup_then_first_render (s0 : State) (pin : Bool) :
    (setup s0 pin).buttonState = (!pin) ∧
    (setup s0 pin).buttonPressed = s0.buttonPressed ∧
    (setup s0 pin).buttonReleased = s0.buttonReleased ∧
    (startup false).buttonState = true ∧
    (startup pin).buttonPressed = false ∧ (startup pin).buttonReleased = false ∧
    (loop (startup pin)).tft = (startup pin).tft ++ dynamicCalls (!pin) ∧
    (loop (startup pin)).buttonState = (!pin) := by
  refine ⟨rfl, rfl, rfl, rfl, rfl, rfl, ?_, ?_⟩
  · cases pin <;> rfl
  · cases pin <;> rfl

/-! ## What the display shows -/

theorem renderCalls_concat (hist : List Bool) (b : Bool) :
    renderCalls (hist ++ [b]) = renderCalls hist ++ dynamicCalls b := by
  simp [renderCalls, List.flatMap_append]

theorem renderedUpTo_step (base : List TftCall) (s : State) (e : Event)
    (hs : RenderedUpTo base s) : RenderedUpTo base (step s e) := by
  obtain ⟨hist, htft, hlast⟩ := hs
  cases e with
  | isr now pin =>
    change RenderedUpTo base (handleButtonChange s now pin)
    by_cases hacc : accepted s now pin = true
    · obtain ⟨_, hp, hr⟩ := handleButtonChange_of_accepted s now pin hacc
      refine ⟨hist, by rw [handleButtonChange_tft, htft], fun hp0 hr0 _ => ?_⟩
      rw [hp] at hp0
      rw [hr] at hr0
      revert hp0 hr0
      cases pin <;> simp
    · have hacc' : accepted s now pin = false := by
        simpa using hacc
      rw [handleButtonChange_of_not_accepted s now pin hacc']
      exact ⟨hist, htft, hlast⟩
  | poll =>
    change RenderedUpTo base (loop s)
    by_cases hany : (s.buttonPressed || s.buttonReleased || s.redrawRequired) = true
    · refine ⟨hist ++ [s.buttonState], ?_, fun _ _ _ => ⟨hist, ?_⟩⟩
      · rw [loop_tft, if_pos hany, htft, renderCalls_concat, List.append_assoc]
      · rw [(loop_frame s).1]
    · simp only [Bool.or_eq_true, not_or, Bool.not_eq_true] at hany
      rw [loop_idle s hany.1.1 hany.1.2 hany.2]
      exact ⟨hist, htft, hlast⟩

theorem renderedUpTo_run (base : List TftCall) (evs : List Event) :
    ∀ s : State, RenderedUpTo base s → RenderedUpTo base (run s evs) := by
  induction evs with
  | nil => intro s hs; exact hs
  | cons e rest ih =>
    intro s hs
    exact ih (step s e) (renderedUpTo_step base s e hs)

/-- C10: in every state reached from startup by handler runs and iterations
of `loop()`, if `buttonPressed`, `buttonReleased` and `redrawRequired` are all
clear, then the display calls issued since `setup()` are a non-empty series of
renders and the last of them rendered the current `buttonState`. -/
theorem latest_state_rendered (pin : Bool) (evs : List Event)
    (hp : (run (startup pin) evs).buttonPressed = false)
    (hr : (run (startup pin) evs).buttonReleased = false)
    (hd : (run (startup pin) evs).redrawRequired = false) :
    ∃ earlier : List Bool, (run (startup pin) evs).tft =
      (startup pin).tft ++
        renderCalls (earlier ++ [(run (startup pin) evs).buttonState]) := by
  have hinit : RenderedUpTo (startup pin).tft (startup pin) := by
    refine ⟨[], by simp [renderCalls], fun _ _ hd0 => ?_⟩
    exact absurd hd0 (by cases pin <;> decide)
  obtain ⟨hist, htft, hlast⟩ := renderedUpTo_run (startup pin).tft evs (startup pin) hinit
  obtain ⟨earlier, hhist⟩ := hlast hp hr hd
  exact ⟨earlier, by rw [htft, hhist]⟩

theorem latest_state_rendered_witness :
    (run (startup true) [Event.isr 20 false, Event.poll]).buttonState = true ∧
    ∃ earlier : List Bool,
      (run (startup true) [Event.isr 20 false, Event.poll]).tft =
        (startup true).tft ++ renderCalls (earlier ++
          [(run (startup true) [Event.isr 20 false, Event.poll]).buttonState]) :=
  ⟨by decide,
    latest_state_rendered true [Event.isr 20 false, Event.poll]
      (by decide) (by decide) (by decide)⟩

/-! ## Direction of the data flow -/

/-- C11: two states with the same `buttonState` and handler timestamp, whatever
their flags and `redrawRequired`, get the same debounce verdict and the same
accept decision from a handler run, end with the same `buttonState` and
timestamp, and have the same flag raised (`buttonPressed` for an accepted LOW,
`buttonReleased` for an accepted HIGH); an iteration of `loop()` changes
neither `buttonState` nor the timestamp. -/
theorem handler_independent_of_flags (s1 s2 : State) (now : Nat) (pin : Bool)
    (hbs : s1.buttonState = s2.buttonState)
    (hts : s1.lastInterruptTime = s2.lastInterruptTime) :
    debouncePassed s1 (millis now) = debouncePassed s2 (millis now) ∧
    accepted s1 now pin = accepted s2 now pin ∧
    (handleButtonChange s1 now pin).buttonState =
      (handleButtonChange s2 now pin).buttonState ∧
    (handleButtonChange s1 now pin).lastInterruptTime =
      (handleButtonChange s2 now pin).lastInterruptTime ∧
    (handleButtonChange s1 now pin).buttonPressed =
      ((accepted s1 now pin && !pin) || s1.buttonPressed) ∧
    (handleButtonChange s2 now pin).buttonPressed =
      ((accepted s1 now pin && !pin) || s2.buttonPressed) ∧
    (handleButtonChange s1 now pin).buttonReleased =
      ((accepted s1 now pin && pin) || s1.buttonReleased) ∧
    (handleButtonChange s2 now pin).buttonReleased =
      ((accepted s1 now pin && pin) || s2.buttonReleased) ∧
    (loop s1).buttonState = s1.buttonState ∧
    (loop s1).lastInterruptTime = s1.lastInterruptTime := by
  have hpass : debouncePassed s1 (millis now) = debouncePassed s2 (millis now) := by
    simp [debouncePassed, elapsed, hts]
  have hacc : accepted s1 now pin = accepted s2 now pin := by
    simp [accepted, hpass, hbs]
  have hflags : ∀ s : State,
      (handleButtonChange s now pin).buttonState =
        (if accepted s now pin then !pin else s.buttonState) ∧
      (handleButtonChange s now pin).buttonPressed =
        ((accepted s now pin && !pin) || s.buttonPressed) ∧
      (handleButtonChange s now pin).buttonReleased =
        ((accepted s now pin && pin) || s.buttonReleased) := by
    intro s
    by_cases h : accepted s now pin = true
    · obtain ⟨hb, hp, hr⟩ := handleButtonChange_of_accepted s now pin h
      rw [hb, hp, hr, h]
      cases pin <;> simp
    · have h' : accepted s now pin = false := by
        simpa using h
      rw [handleButtonChange_of_not_accepted s now pin h', h']
      simp
  obtain ⟨hb1, hp1, hr1⟩ := hflags s1
  obtain ⟨hb2, hp2, hr2⟩ := hflags s2
  refine ⟨hpass, hacc, ?_, ?_, hp1, ?_, hr1, ?_, (loop_frame s1).1, (loop_frame s1).2⟩
  · rw [hb1, hb2, hacc, hbs]
  · rw [handleButtonChange_lastInterruptTime, handleButtonChange_lastInterruptTime]
  · rw [hacc]
    exact hp2
  · rw [hacc]
    exact hr2

theorem handler_independent_of_flags_witness :
    accepted (startup true) 25 false = true ∧
    (startup true).redrawRequired ≠ (loop (startup true)).redrawRequired ∧
    debouncePassed (startup true) (millis 25) =
      debouncePassed (loop (startup true)) (millis 25) ∧
    accepted (startup true) 25 false = accepted (loop (startup true)) 25 false ∧
    (handleButtonChange (startup true) 25 false).buttonState =
      (handleButtonChange (loop (startup true)) 25 false).buttonState ∧
    (handleButtonChange (startup true) 25 false).lastInterruptTime =
      (handleButtonChange (loop (startup true)) 25 false).lastInterruptTime ∧
    (handleButtonChange (startup true) 25 false).buttonPressed =
      ((accepted (startup true) 25 false && !false) || (startup true).buttonPressed) ∧
    (handleButtonChange (loop (startup true)) 25 false).buttonPressed =
      ((accepted (startup true) 25 false && !false) ||
        (loop (startup true)).buttonPressed) ∧
    (handleButtonChange (startup true) 25 false).buttonReleased =
      ((accepted (startup true) 25 false && false) || (startup true).buttonReleased) ∧
    (handleButtonChange (loop (startup true)) 25 false).buttonReleased =
      ((accepted (startup true) 25 false && false) ||
        (loop (startup true)).buttonReleased) ∧
    (loop (startup true)).buttonState = (startup true).buttonState ∧
    (loop (startup true)).lastInterruptTime = (startup true).lastInterruptTime :=
  ⟨by decide, by decide,
    handler_independent_of_flags (startup true) (loop (startup true)) 25 false
      (by decide) (by decide)⟩

/-! ## The bounce and release scenario -/

/-- C12: from a state with the button pressed, both edge flags and
`redrawRequired` clear and the handler timestamp 0, the handler runs at 3 ms
(HIGH) and 6 ms (LOW) are both discarded, `buttonState` stays pressed and the
following iteration of `loop()` issues no display call; the handler run at
25 ms (HIGH) is then accepted, stores released, sets `buttonReleased` and not
`buttonPressed`, and the next iteration renders exactly once and clears the
flag. -/
theorem bounce_then_release (s : State) (hbs : s.buttonState = true)
    (hp : s.buttonPressed = false) (hr : s.buttonReleased = false)
    (hd : s.redrawRequired = false) (hts : s.lastInterruptTime = 0) :
    accepted s 3 true = false ∧
    accepted (run s [Event.isr 3 true]) 6 false = false ∧
    (run s [Event.isr 3 true, Event.isr 6 false]).buttonState = true ∧
    (run s [Event.isr 3 true, Event.isr 6 false]).buttonPressed = false ∧
    (run s [Event.isr 3 true, Event.isr 6 false]).buttonReleased = false ∧
    (run s [Event.isr 3 true, Event.isr 6 false, Event.poll]).tft = s.tft ∧
    accepted (run s [Event.isr 3 true, Event.isr 6 false, Event.poll]) 25 true = true ∧
    (run s [Event.isr 3 true, Event.isr 6 false, Event.poll,
      Event.isr 25 true]).buttonState = false ∧
    (run s [Event.isr 3 true, Event.isr 6 false, Event.poll,
      Event.isr 25 true]).buttonReleased = true ∧
    (run s [Event.isr 3 true, Event.isr 6 false, Event.poll,
      Event.isr 25 true]).buttonPressed = false ∧
    (run s [Event.isr 3 true, Event.isr 6 false, Event.poll,
      Event.isr 25 true, Event.poll]).tft = s.tft ++ dynamicCalls false ∧
    (run s [Event.isr 3 true, Event.isr 6 false, Event.poll,
      Event.isr 25 true, Event.poll]).buttonReleased = false := by
  have hrej1 : debouncePassed s (millis 3) = false := by
    rw [debouncePassed_of_last s (millis 3) 0 hts]
    decide
  have hs1 : handleButtonChange s 3 true = { s with lastInterruptTime := millis 3 } :=
    handleButtonChange_rejected s 3 true (Or.inl hrej1)
  have hrej2 : debouncePassed (handleButtonChange s 3 true) (millis 6) = false := by
    rw [debouncePassed_of_last _ (millis 6) (millis 3)
      (handleButtonChange_lastInterruptTime s 3 true)]
    decide
  have hs2 : handleButtonChange (handleButtonChange s 3 true) 6 false =
      { s with lastInterruptTime := millis 6 } := by
    rw [handleButtonChange_rejected _ 6 false (Or.inl hrej2), hs1]
  have hs3 : loop (handleButtonChange (handleButtonChange s 3 true) 6 false) =
      { s with lastInterruptTime := millis 6 } := by
    rw [hs2]
    exact loop_idle _ hp hr hd
  have hpass : debouncePassed { s with lastInterruptTime := millis 6 } (millis 25) =
      true := by
    rw [debouncePassed_of_last _ (millis 25) (millis 6) rfl]
    decide
  have hacc : accepted { s with lastInterruptTime := millis 6 } 25 true = true := by
    rw [accepted, hpass]
    simp [hbs]
  obtain ⟨hb4, hp4, hr4⟩ :=
    handleButtonChange_of_accepted { s with lastInterruptTime := millis 6 } 25 true hacc
  have ht4 := handleButtonChange_tft { s with lastInterruptTime := millis 6 } 25 true
  repeat rw [run_cons]
  repeat rw [run_nil]
  repeat rw [step_isr]
  repeat rw [step_poll]
  rw [hs3, hs2]
  refine ⟨by simp [accepted, hrej1], by simp [accepted, hrej2], hbs, hp, hr, rfl, hacc,
    by simpa using hb4, by simpa using hr4, by simpa [hp] using hp4, ?_,
    (loop_flags _).2.1⟩
  rw [loop_tft, hr4, ht4]
  simp [hb4]

theorem bounce_then_release_witness :
    (loop (startup false)).buttonState = true ∧
    (run (loop (startup false)) [Event.isr 3 true, Event.isr 6 false]).buttonState = true ∧
    (run (loop (startup false)) [Event.isr 3 true, Event.isr 6 false, Event.poll,
      Event.isr 25 true]).buttonReleased = true ∧
    (run (loop (startup false)) [Event.isr 3 true, Event.isr 6 false, Event.poll,
      Event.isr 25 true, Event.poll]).tft =
      (loop (startup false)).tft ++ dynamicCalls false :=
  have h := bounce_then_release (loop (startup false))
    (by decide) (by decide) (by decide) (by decide) (by decide)
  ⟨by decide, h.2.2.1, h.2.2.2.2.2.2.2.2.1, h.2.2.2.2.2.2.2.2.2.2.1⟩

/-! ## Bounces spaced wider than the debounce interval -/

theorem allAccepted_of_widelySpaced (evs : List (Nat × Bool)) :
    ∀ s : State, widelySpaced s.lastInterruptTime evs →
      alternating s.buttonState evs → allAccepted s evs := by
  induction evs with
  | nil =>
    intro s _ _
    exact True.intro
  | cons e rest ih =>
    intro s hsp halt
    obtain ⟨hgap, hrest⟩ := hsp
    obtain ⟨hlevel, haltrest⟩ := halt
    have hpass : debouncePassed s (millis e.1) = true := by
      simp [debouncePassed, elapsed, debounceInterval, hgap]
    have hacc : accepted s e.1 e.2 = true := by
      rw [accepted, hpass, hlevel]
      cases s.buttonState <;> rfl
    obtain ⟨hb, hp, hr⟩ := handleButtonChange_of_accepted s e.1 e.2 hacc
    have hnew : (handleButtonChange s e.1 e.2).buttonState = (!s.buttonState) := by
      rw [hb, hlevel]
    refine ⟨hacc, hnew, fun hset => ?_, fun hclear => ?_, ?_⟩
    · rw [hp, ← hb, hset]
      rfl
    · rw [hr]
      rw [hb] at hclear
      revert hclear
      cases e.2 <;> simp
    · apply ih
      · rw [handleButtonChange_lastInterruptTime]
        exact hrest
      · rw [hnew]
        exact haltrest

theorem widelySpaced_of_spacedApartBelowWrap (evs : List (Nat × Bool)) :
    ∀ prev : Nat, spacedApartBelowWrap prev evs → widelySpaced (millis prev) evs := by
  induction evs with
  | nil =>
    intro _ _
    exact True.intro
  | cons e rest ih =>
    intro prev hsp
    obtain ⟨hlo, hhi, hrest⟩ := hsp
    refine ⟨?_, ih e.1 hrest⟩
    rw [ulongSub_millis prev e.1 (by omega) (by omega)]
    omega

/-- C13 (as stated, refuted): after a press accepted at 20 ms and one
iteration of `loop()`, a handler run firing 2 ^ 32 + 5 ms later (more than
10 ms after the run before it) and sampling HIGH, the level whose inverse
differs from `buttonState`, measures a difference of 5, is not accepted, and
leaves `buttonState` pressed and `buttonReleased` clear. -/
theorem slow_bounce_rejected_after_wrap :
    (loop (handleButtonChange (startup true) 20 false)).lastInterruptTime = millis 20 ∧
    spacedApart 20 [(4294967321, true)] ∧
    alternating (loop (handleButtonChange (startup true) 20 false)).buttonState
      [(4294967321, true)] ∧
    elapsed (loop (handleButtonChange (startup true) 20 false)) (millis 4294967321) = 5 ∧
    accepted (loop (handleButtonChange (startup true) 20 false)) 4294967321 true = false ∧
    (handleButtonChange (loop (handleButtonChange (startup true) 20 false))
      4294967321 true).buttonState = true ∧
    (handleButtonChange (loop (handleButtonChange (startup true) 20 false))
      4294967321 true).buttonReleased = false ∧
    ¬ allAccepted (loop (handleButtonChange (startup true) 20 false))
      [(4294967321, true)] :=
  ⟨by decide, ⟨by decide, True.intro⟩, ⟨by decide, True.intro⟩, by decide, by decide,
    by decide, by decide, fun h => absurd h.1 (by decide)⟩

/-- C13 (amended): from any state whose stored timestamp is the clock reading
of a handler run at time `prev`, handler runs that each fire more than 10 ms
and less than 2 ^ 32 ms after the run before it (the first one after `prev`),
with pin levels alternating from the level whose inverse differs from
`buttonState`, are all accepted: each toggles `buttonState` and sets the flag
of the new state. -/
theorem slow_bounces_all_accepted (s : State) (prev : Nat) (evs : List (Nat × Bool))
    (hlast : s.lastInterruptTime = millis prev)
    (hsp : spacedApartBelowWrap prev evs)
    (halt : alternating s.buttonState evs) : allAccepted s evs := by
  apply allAccepted_of_widelySpaced evs s
  · rw [hlast]
    exact widelySpaced_of_spacedApartBelowWrap evs prev hsp
  · exact halt

theorem slow_bounces_all_accepted_witness :
    (handleButtonChange (startup false) 4294967290 true).buttonState = false ∧
    millis 4294967301 < millis 4294967290 ∧
    allAccepted (handleButtonChange (startup false) 4294967290 true)
      [(4294967301, false), (4294967320, true), (4294967340, false)] :=
  ⟨by decide, by decide,
    slow_bounces_all_accepted (handleButtonChange (startup false) 4294967290 true)
      4294967290 [(4294967301, false), (4294967320, true), (4294967340, false)]
      (by decide)
      ⟨by decide, by decide, by decide, by decide, by decide, by decide, True.intro⟩
      ⟨by decide, by decide, by decide, True.intro⟩⟩

/-! ## Values when setup has returned -/

/-- C14 (as stated, refuted): it is not the case that for every pin level at
boot `setup()` returns with both edge flags and `redrawRequired` false and the
handler timestamp 0; `redrawRequired` is true. -/
theorem redraw_pending_after_setup :
    ¬ ∀ pin : Bool, (startup pin).buttonPressed = false ∧
      (startup pin).buttonReleased = false ∧ (startup pin).redrawRequired = false ∧
      (startup pin).lastInterruptTime = 0 := by
  intro h
  have h1 := (h true).2.2.1
  revert h1
  decide

/-- C14 (amended): when `setup()` has returned, both edge flags are false and
the handler timestamp (like `lastDebounceTime`) is 0, while `redrawRequired`
is true. -/
theorem values_after_setup (pin : Bool) :
    (startup pin).buttonPressed = false ∧ (startup pin).buttonReleased = false ∧
    (startup pin).redrawRequired = true ∧ (startup pin).lastInterruptTime = 0 ∧
    (startup pin).lastDebounceTime = 0 :=
  ⟨rfl, rfl, rfl, rfl, rfl⟩

/-! ## Wrap-around of the millisecond counter -/

/-- C15: whatever timestamp is stored, a handler run whose clock reads the
stored timestamp plus `d` modulo 2 ^ 32, with `d` below 2 ^ 32, passes the
debounce test exactly when `d` exceeds 10, also when the reading is
numerically below the stored timestamp. -/
theorem debounce_across_wrap (s : State) (d : Nat) (hd : d < 4294967296) :
    debouncePassed s (millis (s.lastInterruptTime + d)) = true ↔ 10 < d := by
  have hgap : elapsed s (millis (s.lastInterruptTime + d)) = d := by
    unfold elapsed ulongSub millis
    omega
  simp [debouncePassed, debounceInterval, hgap]

theorem debounce_across_wrap_witness :
    millis (4294967290 + 20) < 4294967290 ∧
    (debouncePassed { boot with lastInterruptTime := 4294967290 }
      (millis (4294967290 + 20)) = true ↔ 10 < 20) :=
  ⟨by decide,
    debounce_across_wrap { boot with lastInterruptTime := 4294967290 } 20 (by decide)⟩

/-! ## Overwriting the value field -/

theorem showCall_dynamicCalls (f : ValueField) (b : Bool) :
    ((dynamicCalls b).foldl showCall f).cells = renderedField b ++ f.cells.drop 12 := by
  have hblank : "            ".toList = List.replicate 12 ' ' := by decide
  have hblen : "            ".length = 12 := by decide
  have hrel : "RELEASED".toList = ['R', 'E', 'L', 'E', 'A', 'S', 'E', 'D'] := by decide
  have hrlen : "RELEASED".length = 8 := by decide
  have hpre : "PRESSED".toList = ['P', 'R', 'E', 'S', 'S', 'E', 'D'] := by decide
  have hplen : "PRESSED".length = 7 := by decide
  cases b
  · simp [dynamicCalls, showCall, putText, stateLabel, renderedField, hblank, hblen,
      hpre, hplen, List.replicate]
  · simp [dynamicCalls, showCall, putText, stateLabel, renderedField, hblank, hblen,
      hrel, hrlen, List.replicate]

theorem renderedField_length (b : Bool) : (renderedField b).length = 12 := by
  cases b <;> decide

/-- C16: in the character-cell model of the value field, when the field holds
what an earlier render left (a label followed by blanks, twelve cells), after
`updateDynamicElements()` it holds the current label followed by blanks only;
both labels are no longer than the twelve blanks printed first at the same
position. -/
theorem render_overwrites_field (s : State) (prev : Bool)
    (hprev : (display s.tft).cells = renderedField prev) :
    (display (updateDynamicElements s).tft).cells = renderedField s.buttonState ∧
    (stateLabel s.buttonState).length ≤ "            ".length ∧
    (stateLabel prev).length ≤ "            ".length := by
  have hshow : (display (updateDynamicElements s).tft).cells =
      renderedField s.buttonState ++ (display s.tft).cells.drop 12 := by
    have hcalls : (updateDynamicElements s).tft = s.tft ++ dynamicCalls s.buttonState := rfl
    rw [hcalls, display, List.foldl_append]
    exact showCall_dynamicCalls _ s.buttonState
  have hdrop : (display s.tft).cells.drop 12 = [] := by
    rw [hprev, List.drop_eq_nil_iff, renderedField_length]
  refine ⟨by rw [hshow, hdrop, List.append_nil], ?_, ?_⟩
  · cases s.buttonState <;> decide
  · cases prev <;> decide

theorem render_overwrites_field_witness :
    (handleButtonChange (loop (startup true)) 25 false).buttonState = true ∧
    (display (loop (startup true)).tft).cells =
      ['P', 'R', 'E', 'S', 'S', 'E', 'D', ' ', ' ', ' ', ' ', ' '] ∧
    (display (updateDynamicElements
        (handleButtonChange (loop (startup true)) 25 false)).tft).cells =
      ['R', 'E', 'L', 'E', 'A', 'S', 'E', 'D', ' ', ' ', ' ', ' '] :=
  ⟨by decide, by decide,
    (render_overwrites_field (handleButtonChange (loop (startup true)) 25 false) false
      (by decide)).1⟩

end PushButton
